import Mathlib

/-!
Verification development for the ETL expression-template tensor library.

Each C++ function relevant to the checked claims is shallowly embedded as an
executable Lean definition, translated directly from the source under
`src/include/etl/`.  Machine integers (`std::size_t`) are modelled as `Nat`
(none of the embedded arithmetic can overflow in the scenarios considered,
and the source relies on the same assumption).  Compile-time configuration
flags (`cblas_enabled`, `cublas_enabled`, ...) and tunable thresholds
(`gemm_cublas_min`, `gemm_std_max`, `threads`, ...) are parameters of the
embedding: the selection logic is in the source, the constants are build
configuration.
-/

namespace ETL

/-- The implementation tags of the GEMM operation family
(`gemm_impl` in the source: STD, FAST, VEC, BLAS, CUBLAS). -/
inductive gemm_impl where
  | STD : gemm_impl
  | FAST : gemm_impl
  | VEC : gemm_impl
  | BLAS : gemm_impl
  | CUBLAS : gemm_impl
deriving DecidableEq, Repr

/-- Build configuration consumed by the GEMM selectors: which backends are
compiled in, and the size thresholds (`gemm_cublas_min`, `gemm_std_max`). -/
structure GemmConfig where
  cblas_enabled : Bool
  cublas_enabled : Bool
  vec_enabled : Bool
  gemm_cublas_min : Nat
  gemm_std_max : Nat
deriving DecidableEq, Repr

/-- `select_default_gemm_impl` from `src/include/etl/impl/gemm.hpp`
(lines 32-62).  In that file all operands are direct-memory
(`static_assert(all_dma<A, B, C>::value)`); the compile-time fact
`all_vectorizable<vector_mode, A, B, C>::value` is the `vectorizable`
parameter. -/
def select_default_gemm_impl (cfg : GemmConfig) (vectorizable : Bool)
    (n1 n2 n3 : Nat) : gemm_impl :=
  let _ := n2  -- cpp_unused(n2)
  if cfg.cublas_enabled then
    if n1 * n3 < cfg.gemm_cublas_min then
      if cfg.cblas_enabled then gemm_impl.BLAS
      else if n1 * n3 < cfg.gemm_std_max then gemm_impl.STD
      else gemm_impl.CUBLAS
    else gemm_impl.CUBLAS
  else if cfg.cblas_enabled then gemm_impl.BLAS
  else if cfg.vec_enabled && vectorizable then gemm_impl.VEC
  else gemm_impl.STD

/-- `select_gemm_impl` from `src/include/etl/impl/gemm.hpp` (lines 72-113).
The forced override held by `local_context().gemm_selector` is modelled by
`forced : Option gemm_impl`.  The returned pair is the selected tag together
with a flag recording whether the diagnostic (`std::cerr << "Forced
selection to ..."`) was emitted. -/
def select_gemm_impl (cfg : GemmConfig) (vectorizable : Bool)
    (forced : Option gemm_impl) (n1 n2 n3 : Nat) : gemm_impl × Bool :=
  let def_ := select_default_gemm_impl cfg vectorizable n1 n2 n3
  match forced with
  | none => (def_, false)
  | some f =>
    match f with
    | gemm_impl.CUBLAS =>
      if !cfg.cublas_enabled then (def_, true) else (f, false)
    | gemm_impl.BLAS =>
      if !cfg.cblas_enabled then (def_, true) else (f, false)
    | gemm_impl.VEC =>
      if !cfg.vec_enabled || !vectorizable then (def_, true) else (f, false)
    | _ => (f, false)

/-- `select_default_gemm_impl` from `src/include/etl/impl/mmul.hpp`
(lines 30-64).  `DMA` is the template parameter of the same name;
`isComplex` is `is_complex_t<T>::value`. -/
def select_default_gemm_impl_mmul (cfg : GemmConfig) (DMA isComplex : Bool)
    (n1 n2 n3 : Nat) : gemm_impl :=
  let _ := n2  -- cpp_unused(n2)
  if !DMA then gemm_impl.STD
  else if cfg.cublas_enabled then
    if n1 * n3 < cfg.gemm_cublas_min then
      if cfg.cblas_enabled then gemm_impl.BLAS
      else if n1 * n3 < cfg.gemm_std_max then gemm_impl.STD
      else gemm_impl.CUBLAS
    else gemm_impl.CUBLAS
  else if cfg.cblas_enabled then gemm_impl.BLAS
  else if n1 * n3 < cfg.gemm_std_max || isComplex then gemm_impl.STD
  else gemm_impl.FAST

/-- `select_gemm_impl` from `src/include/etl/impl/mmul.hpp` (lines 73-113).
The switch checks forced CUBLAS, BLAS and FAST; any other forced tag
(STD, VEC) is returned unchecked by the `default` case. -/
def select_gemm_impl_mmul (cfg : GemmConfig) (DMA isComplex : Bool)
    (forced : Option gemm_impl) (n1 n2 n3 : Nat) : gemm_impl × Bool :=
  let def_ := select_default_gemm_impl_mmul cfg DMA isComplex n1 n2 n3
  match forced with
  | none => (def_, false)
  | some f =>
    match f with
    | gemm_impl.CUBLAS =>
      if !cfg.cublas_enabled || !DMA then (def_, true) else (f, false)
    | gemm_impl.BLAS =>
      if !cfg.cblas_enabled || !DMA then (def_, true) else (f, false)
    | gemm_impl.FAST =>
      if !DMA || isComplex then (def_, true) else (f, false)
    | _ => (f, false)

/-- Structural infeasibility of a forced tag for the selector of
`impl/gemm.hpp`, exactly as the claim defines it: the backend is compiled
out, or the operands are not vectorizable for the active mode (operands are
always direct-memory there). -/
def gemm_forced_infeasible (cfg : GemmConfig) (vectorizable : Bool)
    (f : gemm_impl) : Prop :=
  (f = gemm_impl.CUBLAS ∧ cfg.cublas_enabled = false) ∨
  (f = gemm_impl.BLAS ∧ cfg.cblas_enabled = false) ∨
  (f = gemm_impl.VEC ∧ (cfg.vec_enabled = false ∨ vectorizable = false))

instance (cfg : GemmConfig) (v : Bool) (f : gemm_impl) :
    Decidable (gemm_forced_infeasible cfg v f) := by
  unfold gemm_forced_infeasible
  infer_instance

/-- Structural infeasibility of a forced tag for the checked cases of the
selector of `impl/mmul.hpp`: CUBLAS and BLAS additionally require
direct-memory operands, FAST requires direct memory and a non-complex
element type. -/
def gemm_forced_infeasible_mmul (cfg : GemmConfig) (DMA isComplex : Bool)
    (f : gemm_impl) : Prop :=
  (f = gemm_impl.CUBLAS ∧ (cfg.cublas_enabled = false ∨ DMA = false)) ∨
  (f = gemm_impl.BLAS ∧ (cfg.cblas_enabled = false ∨ DMA = false)) ∨
  (f = gemm_impl.FAST ∧ (DMA = false ∨ isComplex = true))

/-- Static or dynamic shape of a 2-dimensional operand (`dim<0>`, `dim<1>`). -/
structure Dims2 where
  d0 : Nat
  d1 : Nat
deriving DecidableEq, Repr

/-- Shape of a 4-dimensional operand. -/
structure Dims4 where
  d0 : Nat
  d1 : Nat
  d2 : Nat
  d3 : Nat
deriving DecidableEq, Repr

/-- The condition asserted by `check_mm_mul_sizes` from
`src/include/etl/expr/mmul_expr.hpp` (lines 21-40): interior dimensions and
both exterior dimensions must match.  The runtime overload asserts this at
run time, the `all_fast` overload checks the same equalities by
`static_assert` on the compile-time extents. -/
def check_mm_mul_sizes (a b c : Dims2) : Bool :=
  a.d1 == b.d0 && a.d0 == c.d0 && b.d1 == c.d1

/-- The validation step of `basic_mm_mul_expr::apply`: the size check runs
before the implementation dispatch; a failed `cpp_assert` aborts with the
message of the assertion. -/
def mm_mul_validate (a b c : Dims2) : Except String Unit :=
  if check_mm_mul_sizes a b c then Except.ok ()
  else Except.error ("Invalid sizes for multiplication")

/-- The condition asserted by `conv4_valid_impl::check` from
`src/include/etl/impl/conv_4d.hpp` (lines 57-94), for stride (S1, S2) and
padding (P1, P2): batch and channel dimensions must agree, the output
spatial extents must equal the valid-convolution formula, and the kernel
must not exceed the input in each spatial dimension. -/
def conv4_valid_check (S1 S2 P1 P2 : Nat) (input kernel conv : Dims4) : Bool :=
  conv.d0 == input.d0 &&
  conv.d1 == kernel.d0 &&
  input.d1 == kernel.d1 &&
  conv.d2 == (input.d2 - kernel.d2 + 2 * P1) / S1 + 1 &&
  conv.d3 == (input.d3 - kernel.d3 + 2 * P2) / S2 + 1 &&
  decide (input.d2 ≥ kernel.d2) &&
  decide (input.d3 ≥ kernel.d3)

/-- The validation step of the 4D valid convolution: a failed check aborts
with the descriptive assertion message naming the operation. -/
def conv4_valid_validate (S1 S2 P1 P2 : Nat) (input kernel conv : Dims4) :
    Except String Unit :=
  if conv4_valid_check S1 S2 P1 P2 input kernel conv then Except.ok ()
  else Except.error ("Invalid dimensions for conv4_valid")

/-- `mul_all<Dims...>` from `src/include/etl/fast_base.hpp`: the product of
the compile-time extents, giving `fast_matrix_base::etl_size`. -/
def mul_all : List Nat → Nat
  | [] => 1
  | d :: ds => d * mul_all ds

/-- `fast_matrix_base::etl_size` (fast_base.hpp line 77). -/
def fast_matrix_etl_size (dims : List Nat) : Nat := mul_all dims

/-- The static extent of dimension `d` of a fast matrix. -/
def fast_matrix_dim (dims : List Nat) (d : Nat) : Nat := dims.getD d 0

/-- `fast_matrix_base::n_dimensions` (fast_base.hpp line 76). -/
def fast_matrix_dimensions (dims : List Nat) : Nat := dims.length

/-- The dynamically-sized 2D matrix of `src/include/etl/dyn_matrix.hpp`:
stored extents `_rows` and `_columns`, contiguous storage. -/
structure DynMatrix (α : Type) where
  rows : Nat
  columns : Nat
  data : List α
deriving Repr

/-- `dyn_matrix::size` (dyn_matrix.hpp line 160). -/
def DynMatrix.size (m : DynMatrix α) : Nat := m.rows * m.columns

/-- The extent of dimension `d` of a `dyn_matrix` (`rows` / `columns`,
dyn_matrix.hpp lines 152-158). -/
def DynMatrix.dim (m : DynMatrix α) (d : Nat) : Nat :=
  if d = 0 then m.rows else m.columns

/-- A `dyn_matrix` has two dimensions. -/
def DynMatrix.dimensions : Nat := 2

/-- `basic_mm_mul_expr::size(a, b)` from mmul_expr.hpp (lines 124-127): the
size of the matrix-product temporary computed from the operand shapes. -/
def mm_mul_size (a b : Dims2) : Nat := a.d0 * b.d1

/-- `basic_mm_mul_expr::dim(a, b, d)` from mmul_expr.hpp (lines 129-136). -/
def mm_mul_dim (a b : Dims2) (d : Nat) : Nat :=
  if d = 0 then a.d0 else b.d1

/-- `basic_mm_mul_expr::dimensions()` (mmul_expr.hpp lines 148-150). -/
def mm_mul_dimensions : Nat := 2

/-- A binary element-wise expression tree (`binary_expr` over direct-memory
leaves): a leaf holds its backing storage, a node holds the scalar binary
operation and the two operands. -/
inductive BinExpr (α : Type) where
  | leaf : List α → BinExpr α
  | node : (α → α → α) → BinExpr α → BinExpr α → BinExpr α

/-- `operator[]` (binary_expr.hpp lines 100-102): scalar element access,
`BinaryOp::apply(lhs[i], rhs[i])`.  A leaf reads its backing storage;
out-of-range reads are modelled with the default `d`. -/
def BinExpr.elem (d : α) : BinExpr α → Nat → α
  | BinExpr.leaf data, i => data.getD i d
  | BinExpr.node f l r, i => f (BinExpr.elem d l i) (BinExpr.elem d r i)

/-- `load`/`loadu` (binary_expr.hpp lines 120-134):
`BinaryOp::load(lhs.load(i), rhs.load(i))`, a SIMD group of `w` lanes.
Modelled from the spec for the vector intrinsics absent from src/: a leaf
load reads `w` consecutive elements starting at `i`, and the vector form of
a binary operation applies the scalar operation lane-wise. -/
def BinExpr.load (d : α) (w : Nat) : BinExpr α → Nat → List α
  | BinExpr.leaf data, i => (List.range w).map (fun k => data.getD (i + k) d)
  | BinExpr.node f l r, i =>
    List.zipWith f (BinExpr.load d w l i) (BinExpr.load d w r i)

/-- Storage order tag (`etl::order`). -/
inductive storage_order_t where
  | RowMajor : storage_order_t
  | ColumnMajor : storage_order_t
deriving DecidableEq, Repr

/-- The trait record of an expression type: generator flag, storage order,
total size and the per-dimension extents (`dim d` is `dims.getD d 0`,
`dimensions()` is `dims.length`). -/
structure Traits where
  is_generator : Bool
  storage_order : storage_order_t
  size : Nat
  dims : List Nat
deriving DecidableEq, Repr

/-- `etl_traits<binary_expr>::left_directed` (binary_expr.hpp line 302):
true unless the left operand is a generator. -/
def binary_left_directed (lt : Traits) : Bool := !lt.is_generator

/-- `sub_expr_t` of `etl_traits<binary_expr>` (binary_expr.hpp line 304):
the driving operand, left when `left_directed`, right otherwise. -/
def binary_sub_traits (lt rt : Traits) : Traits :=
  if binary_left_directed lt then lt else rt

/-- The traits computed for a binary expression (binary_expr.hpp lines
302-393): generator iff both operands are, storage order of the
non-generator operand (left-biased), and size/dim/dimensions delegated to
the driving sub-expression. -/
def binary_expr_traits (lt rt : Traits) : Traits where
  is_generator := lt.is_generator && rt.is_generator
  storage_order :=
    if lt.is_generator then rt.storage_order else lt.storage_order
  size := (binary_sub_traits lt rt).size
  dims := (binary_sub_traits lt rt).dims

/-- The mutable state of a `temporary_expr` (temporary_expr.hpp lines
29-33): the `allocated` and `evaluated` flags and the result container
`_c` (a null-able shared pointer, hence `Option`). -/
structure TempExprState (β : Type) where
  allocated : Bool
  evaluated : Bool
  buf : Option β
deriving Repr

/-- `temporary_expr::allocate_temporary` (temporary_expr.hpp lines 97-103):
allocate the container only if `_c` is still null, then set `allocated`.
`alloc` is the container produced by the derived `allocate()`. -/
def allocate_temporary (alloc : β) (s : TempExprState β) : TempExprState β where
  allocated := true
  evaluated := s.evaluated
  buf := match s.buf with
    | none => some alloc
    | some b => some b

/-- `temporary_expr::evaluate` (temporary_expr.hpp lines 86-92): when not
yet evaluated, assert `allocated` (returning `none` models the
`cpp_assert` failure), run the derived `apply` into the container and set
`evaluated`.  The returned number counts how many times `apply` ran. -/
def temp_evaluate (applyFn : Option β → β) (s : TempExprState β) :
    Option (TempExprState β × Nat) :=
  if s.evaluated then some (s, 0)
  else if s.allocated then
    some (TempExprState.mk s.allocated true (some (applyFn s.buf)), 1)
  else none

/-- `temporary_expr::result` (temporary_expr.hpp lines 239-253): asserts
`evaluated` and `allocated` before handing out the container; element reads
(`operator[]`, `read_flat`) all go through it and never mutate the state. -/
def temp_result (s : TempExprState β) : Option β :=
  if s.evaluated && s.allocated then s.buf else none

/-- The move constructor `temporary_expr(temporary_expr&&)`
(temporary_expr.hpp lines 49-51): the destination receives `allocated`,
`evaluated` and the container (the moved-from shared pointer becomes null),
then only the moved-from `evaluated` flag is reset.  Returns (moved-to,
moved-from after the move). -/
def temporary_expr_move (s : TempExprState β) :
    TempExprState β × TempExprState β :=
  (TempExprState.mk s.allocated s.evaluated s.buf,
   TempExprState.mk s.allocated false none)

/-- The execution context consumed by the parallel dispatcher:
`etl::threads`, `local_context().serial`, `local_context().parallel` and
the build-wide `is_parallel` default. -/
structure ParCtx where
  threads : Nat
  serial : Bool
  parallel : Bool
  is_parallel : Bool
deriving DecidableEq, Repr

/-- `engine_select_parallel` from `src/include/etl/parallel_support.hpp`
(lines 20-22). -/
def engine_select_parallel (ctx : ParCtx) (n threshold : Nat) : Bool :=
  decide (ctx.threads > 1) && !ctx.serial &&
    (ctx.parallel || (ctx.is_parallel && decide (n ≥ threshold)))

/-- The sequence of `functor(block_start, block_end)` invocations performed
by `engine_dispatch_1d` (parallel_support.hpp lines 49-74): nothing for an
empty range; a single synchronous invocation on the whole range when the
parallel engine is not selected; otherwise `T = min(n, threads)` scheduled
blocks of `batch = n / T` elements, the last one extended to `last`. -/
def engine_dispatch_1d_blocks (ctx : ParCtx) (first last threshold : Nat) :
    List (Nat × Nat) :=
  let n := last - first
  if n = 0 then []
  else if engine_select_parallel ctx n threshold then
    let T := min n ctx.threads
    let batch := n / T
    ((List.range (T - 1)).map
      (fun t => (first + t * batch, first + (t + 1) * batch))) ++
      [(first + (T - 1) * batch, last)]
  else [(first, last)]

/-- `blocks` forms a chain from `a` to `b`: each block starts where the
previous one ended, the first starts at `a` and the last ends at `b`.
Together with per-block nonemptiness this is exactly a partition of
`[a, b)` into contiguous, disjoint blocks. -/
def chainFrom : Nat → Nat → List (Nat × Nat) → Prop
  | a, b, [] => a = b
  | a, b, (s, e) :: rest => s = a ∧ chainFrom e b rest

instance : ∀ (a b : Nat) (l : List (Nat × Nat)), Decidable (chainFrom a b l)
  | _, _, [] => by
    unfold chainFrom
    infer_instance
  | a, b, (s, e) :: rest =>
    have : Decidable (chainFrom e b rest) := instDecidableChainFrom e b rest
    by
      unfold chainFrom
      infer_instance

/-- The factor-adjustment loop of `thread_blocks` (parallel_support.hpp
lines 76-98): `while (m * n != threads) { ++m; n = threads / m; }`.  The
C++ loop is modelled with explicit fuel; `thread_blocks_loop` below runs it
with enough fuel for the loop to reach `m = threads`, where it always
stops. -/
def thread_blocks_fuel (threads : Nat) : Nat → Nat → Nat × Nat
  | 0, m => (m, threads / m)
  | fuel + 1, m =>
    if m * (threads / m) = threads then (m, threads / m)
    else thread_blocks_fuel threads fuel (m + 1)

/-- The adjustment loop of `thread_blocks`, entered at the initial guess
`m0`.  The initial guess is produced in the source by
`min(threads, max(1UL, size_t(round(sqrt(...)))))` — a floating-point
estimate clamped into `[1, threads]`; the estimate itself is kept abstract
(floating point), only its clamped range matters for the claim. -/
def thread_blocks_loop (threads m0 : Nat) : Nat × Nat :=
  thread_blocks_fuel threads (threads - m0) m0

/-- `thread_blocks(M, N)` (parallel_support.hpp lines 76-98): for `M ≥ N`
the loop adjusts the row factor `m`, otherwise the column factor `n`, and
the result pair is (row blocks, column blocks). -/
def thread_blocks (threads : Nat) (guess M N : Nat) : Nat × Nat :=
  if M ≥ N then
    thread_blocks_loop threads guess
  else
    let p := thread_blocks_loop threads guess
    (p.2, p.1)

/-!  ## Theorems for the selection of GEMM implementations (C2, C3)  -/

/-- C2 (counterexample): the claim says that for all operand dimensions
`n1`, `n3` with `n1 * n3` below the small-size threshold the selector
returns the naive STD tag rather than a vendor-library tag.  With both
vendor libraries enabled and thresholds at 100, the selector returns the
vendor tag BLAS for `n1 = n3 = 1` even though `1 * 1` is far below both
thresholds. -/
theorem select_default_gemm_small_counterexample :
    1 * 1 < 100 ∧
    select_default_gemm_impl
      (GemmConfig.mk true true false 100 100) true 1 1 1 = gemm_impl.BLAS ∧
    gemm_impl.BLAS ≠ gemm_impl.STD := by
  refine ⟨by decide, by decide, by decide⟩

/-- C2 (amended): complete behaviour of `select_default_gemm_impl` from
`impl/gemm.hpp`.  The fixed priority order GPU library > CPU BLAS >
vectorized loop > naive loop holds, but the small-size tie-break only steps
around the GPU library: below `gemm_cublas_min` the selector prefers CPU
BLAS when it is enabled, and falls back to the naive STD loop only when CPU
BLAS is disabled and the size is also below `gemm_std_max`. -/
theorem select_default_gemm_impl_spec (cfg : GemmConfig) (v : Bool)
    (n1 n2 n3 : Nat) :
    (cfg.cublas_enabled = true → ¬(n1 * n3 < cfg.gemm_cublas_min) →
      select_default_gemm_impl cfg v n1 n2 n3 = gemm_impl.CUBLAS) ∧
    (cfg.cublas_enabled = true → n1 * n3 < cfg.gemm_cublas_min →
      cfg.cblas_enabled = true →
      select_default_gemm_impl cfg v n1 n2 n3 = gemm_impl.BLAS) ∧
    (cfg.cublas_enabled = true → n1 * n3 < cfg.gemm_cublas_min →
      cfg.cblas_enabled = false → n1 * n3 < cfg.gemm_std_max →
      select_default_gemm_impl cfg v n1 n2 n3 = gemm_impl.STD) ∧
    (cfg.cublas_enabled = true → n1 * n3 < cfg.gemm_cublas_min →
      cfg.cblas_enabled = false → ¬(n1 * n3 < cfg.gemm_std_max) →
      select_default_gemm_impl cfg v n1 n2 n3 = gemm_impl.CUBLAS) ∧
    (cfg.cublas_enabled = false → cfg.cblas_enabled = true →
      select_default_gemm_impl cfg v n1 n2 n3 = gemm_impl.BLAS) ∧
    (cfg.cublas_enabled = false → cfg.cblas_enabled = false →
      cfg.vec_enabled = true → v = true →
      select_default_gemm_impl cfg v n1 n2 n3 = gemm_impl.VEC) ∧
    (cfg.cublas_enabled = false → cfg.cblas_enabled = false →
      (cfg.vec_enabled = false ∨ v = false) →
      select_default_gemm_impl cfg v n1 n2 n3 = gemm_impl.STD) := by
  refine ⟨?_, ?_, ?_, ?_, ?_, ?_, ?_⟩
  · intro h1 h2
    simp [select_default_gemm_impl, h1, h2]
  · intro h1 h2 h3
    simp [select_default_gemm_impl, h1, h2, h3]
  · intro h1 h2 h3 h4
    simp [select_default_gemm_impl, h1, h2, h3, h4]
  · intro h1 h2 h3 h4
    simp [select_default_gemm_impl, h1, h2, h3, h4]
  · intro h1 h2
    simp [select_default_gemm_impl, h1, h2]
  · intro h1 h2 h3 h4
    simp [select_default_gemm_impl, h1, h2, h3, h4]
  · intro h1 h2 h3
    rcases h3 with h3 | h3 <;>
      simp [select_default_gemm_impl, h1, h2, h3]

/-- C2 (witness): the amended characterization applied at a concrete
configuration (GPU library enabled, size above the threshold selects
CUBLAS). -/
theorem select_default_gemm_impl_spec_witness :
    select_default_gemm_impl
      (GemmConfig.mk false true false 4 4) false 2 2 2 = gemm_impl.CUBLAS :=
  (select_default_gemm_impl_spec
    (GemmConfig.mk false true false 4 4) false 2 2 2).1 rfl (by decide)

/-- C3 (counterexample): in the selector of `impl/mmul.hpp`, forcing the
VEC tag with operands that are not direct-memory returns the forced VEC tag
silently (no diagnostic), even though only the STD implementation can
handle non-direct-memory operands and the computed default is STD. -/
theorem select_gemm_impl_mmul_forced_vec_counterexample :
    select_gemm_impl_mmul (GemmConfig.mk false false false 100 100)
      false false (some gemm_impl.VEC) 2 2 2 = (gemm_impl.VEC, false) ∧
    select_default_gemm_impl_mmul (GemmConfig.mk false false false 100 100)
      false false 2 2 2 = gemm_impl.STD ∧
    gemm_impl.VEC ≠ gemm_impl.STD := by
  refine ⟨by decide, by decide, by decide⟩

/-- C3 (amended): for every forced tag that the selectors check, an
infeasible override emits the diagnostic and returns the computed default,
and a feasible override is returned without a diagnostic — in both the
selector of `impl/gemm.hpp` and the selector of `impl/mmul.hpp`; neither
selector ever aborts (both are total functions).  The amendment: the
selector of `impl/gemm.hpp` checks exactly the tags CUBLAS, BLAS and VEC
(so the claim holds there in full), while the selector of `impl/mmul.hpp`
checks only CUBLAS, BLAS and FAST and returns a forced VEC tag unchecked —
silently — even when the operands are not direct-memory. -/
theorem select_gemm_impl_override_fallback (cfg : GemmConfig)
    (v DMA isComplex : Bool) (f : gemm_impl) (n1 n2 n3 : Nat) :
    (gemm_forced_infeasible cfg v f →
      select_gemm_impl cfg v (some f) n1 n2 n3 =
        (select_default_gemm_impl cfg v n1 n2 n3, true)) ∧
    (¬gemm_forced_infeasible cfg v f →
      select_gemm_impl cfg v (some f) n1 n2 n3 = (f, false)) ∧
    (gemm_forced_infeasible_mmul cfg DMA isComplex f →
      select_gemm_impl_mmul cfg DMA isComplex (some f) n1 n2 n3 =
        (select_default_gemm_impl_mmul cfg DMA isComplex n1 n2 n3, true)) ∧
    (¬gemm_forced_infeasible_mmul cfg DMA isComplex f →
      select_gemm_impl_mmul cfg DMA isComplex (some f) n1 n2 n3 =
        (f, false)) ∧
    (select_gemm_impl_mmul cfg DMA isComplex (some gemm_impl.VEC) n1 n2 n3 =
      (gemm_impl.VEC, false)) := by
  refine ⟨?_, ?_, ?_, ?_, ?_⟩
  · intro h
    rcases h with ⟨hf, h⟩ | ⟨hf, h⟩ | ⟨hf, h⟩
    · subst hf; simp [select_gemm_impl, h]
    · subst hf; simp [select_gemm_impl, h]
    · subst hf
      rcases h with h | h <;> simp [select_gemm_impl, h]
  · intro h
    cases f <;> simp [gemm_forced_infeasible] at h <;>
      simp [select_gemm_impl, *]
  · intro h
    rcases h with ⟨hf, h⟩ | ⟨hf, h⟩ | ⟨hf, h⟩ <;> subst hf <;>
      rcases h with h | h <;> simp [select_gemm_impl_mmul, h]
  · intro h
    cases f <;> simp [gemm_forced_infeasible_mmul] at h <;>
      simp [select_gemm_impl_mmul, *]
  · simp [select_gemm_impl_mmul]

/-- C3 (witness): the fallback applied at a concrete input — forcing CUBLAS
in a build without the GPU library falls back to the default (STD here)
with the diagnostic emitted. -/
theorem select_gemm_impl_override_fallback_witness :
    select_gemm_impl (GemmConfig.mk false false false 4 4) false
      (some gemm_impl.CUBLAS) 2 2 2 = (gemm_impl.STD, true) := by
  have h := (select_gemm_impl_override_fallback
    (GemmConfig.mk false false false 4 4) false false false
    gemm_impl.CUBLAS 2 2 2).1 (Or.inl ⟨rfl, rfl⟩)
  simpa using h

/-!  ## Theorems for shape validation (C4)  -/

/-- C4: shape validation of the product and convolution families.  The
matrix-product check asserts exactly the inner-dimension match and the two
output-dimension matches, and a failing check aborts the `apply` pipeline
with the assertion message before any computation; the 4D valid-convolution
check requires the kernel not to exceed the input in each spatial
dimension, and a failing check aborts with the descriptive message naming
the operation. -/
theorem shape_validation_spec (a b c : Dims2) (S1 S2 P1 P2 : Nat)
    (input kernel conv : Dims4) :
    (check_mm_mul_sizes a b c = true ↔
      (a.d1 = b.d0 ∧ a.d0 = c.d0 ∧ b.d1 = c.d1)) ∧
    (check_mm_mul_sizes a b c = true →
      mm_mul_validate a b c = Except.ok ()) ∧
    (check_mm_mul_sizes a b c = false →
      mm_mul_validate a b c =
        Except.error ("Invalid sizes for multiplication")) ∧
    (conv4_valid_check S1 S2 P1 P2 input kernel conv = true →
      kernel.d2 ≤ input.d2 ∧ kernel.d3 ≤ input.d3) ∧
    (conv4_valid_check S1 S2 P1 P2 input kernel conv = false →
      conv4_valid_validate S1 S2 P1 P2 input kernel conv =
        Except.error ("Invalid dimensions for conv4_valid")) := by
  refine ⟨?_, ?_, ?_, ?_, ?_⟩
  · simp [check_mm_mul_sizes, Bool.and_eq_true, beq_iff_eq, and_assoc]
  · intro h
    simp [mm_mul_validate, h]
  · intro h
    simp [mm_mul_validate, h]
  · intro h
    simp only [conv4_valid_check, Bool.and_eq_true, decide_eq_true_eq] at h
    exact ⟨h.1.2, h.2⟩
  · intro h
    simp [conv4_valid_validate, h]

/-- C4 (witness): the validation applied to concrete shapes — a 2x3 by 3x2
product into a 2x2 output passes, and a 4D convolution whose kernel exceeds
the input fails with the descriptive message. -/
theorem shape_validation_spec_witness :
    mm_mul_validate (Dims2.mk 2 3) (Dims2.mk 3 2) (Dims2.mk 2 2) =
      Except.ok () ∧
    conv4_valid_validate 1 1 0 0 (Dims4.mk 1 1 2 2) (Dims4.mk 1 1 3 3)
      (Dims4.mk 1 1 0 0) =
      Except.error ("Invalid dimensions for conv4_valid") := by
  constructor
  · exact (shape_validation_spec (Dims2.mk 2 3) (Dims2.mk 3 2)
      (Dims2.mk 2 2) 1 1 0 0 (Dims4.mk 1 1 2 2) (Dims4.mk 1 1 3 3)
      (Dims4.mk 1 1 0 0)).2.1 (by decide)
  · exact (shape_validation_spec (Dims2.mk 2 3) (Dims2.mk 3 2)
      (Dims2.mk 2 2) 1 1 0 0 (Dims4.mk 1 1 2 2) (Dims4.mk 1 1 3 3)
      (Dims4.mk 1 1 0 0)).2.2.2.2 (by decide)

/-!  ## Theorems for vectorized element access (C5)  -/

/-- Every SIMD load produces exactly `w` lanes. -/
theorem BinExpr.load_length (d : α) (w : Nat) :
    ∀ (e : BinExpr α) (i : Nat), (BinExpr.load d w e i).length = w := by
  intro e
  induction e with
  | leaf data =>
    intro i
    simp [BinExpr.load]
  | node f l r ihl ihr =>
    intro i
    simp [BinExpr.load, List.length_zipWith, ihl, ihr]

/-- Lane access of a lane-wise combination of two equal-length vectors. -/
theorem list_getD_zipWith (f : α → α → α) (d : α) :
    ∀ (as bs : List α) (k : Nat), k < as.length → k < bs.length →
      (List.zipWith f as bs).getD k d = f (as.getD k d) (bs.getD k d) := by
  intro as
  induction as with
  | nil =>
    intro bs k h1 _
    simp at h1
  | cons a as ih =>
    intro bs k h1 h2
    cases bs with
    | nil => simp at h2
    | cons b bs =>
      cases k with
      | zero => simp
      | succ k =>
        simp only [List.zipWith_cons_cons, List.getD_cons_succ]
        exact ih bs k (by simpa using h1) (by simpa using h2)

/-- Lane access of a tabulated vector. -/
theorem list_getD_map_range (g : Nat → α) (d : α) (w k : Nat) (h : k < w) :
    ((List.range w).map g).getD k d = g k := by
  have hlen : k < ((List.range w).map g).length := by simpa using h
  rw [List.getD_eq_getElem _ _ hlen]
  simp

/-- C5: for every binary element-wise expression, lane `k` of the SIMD
group loaded at `i` equals the scalar element access at `i + k` — applying
the binary operation lane-wise to the operands' vector loads is exactly the
element-wise sequence of scalar applications of the same operation. -/
theorem binary_expr_load_lane_eq_elem (d : α) (w : Nat) (e : BinExpr α)
    (i k : Nat) (h : k < w) :
    (BinExpr.load d w e i).getD k d = BinExpr.elem d e (i + k) := by
  induction e with
  | leaf data =>
    simpa [BinExpr.load, BinExpr.elem] using
      list_getD_map_range (fun j => data.getD (i + j) d) d w k h
  | node f l r ihl ihr =>
    have hl : k < (BinExpr.load d w l i).length := by
      rw [BinExpr.load_length]; exact h
    have hr : k < (BinExpr.load d w r i).length := by
      rw [BinExpr.load_length]; exact h
    calc (BinExpr.load d w (BinExpr.node f l r) i).getD k d
        = f ((BinExpr.load d w l i).getD k d)
            ((BinExpr.load d w r i).getD k d) := by
          simpa [BinExpr.load] using
            list_getD_zipWith f d (BinExpr.load d w l i)
              (BinExpr.load d w r i) k hl hr
      _ = BinExpr.elem d (BinExpr.node f l r) (i + k) := by
          rw [ihl, ihr]; rfl

/-- C5 (witness): the lane equivalence at a concrete expression
`[1,2,3,4] + [10,20,30,40]`, width 2, offset 1, lane 1. -/
theorem binary_expr_load_lane_eq_elem_witness :
    (BinExpr.load 0 2
      (BinExpr.node (fun x y => x + y)
        (BinExpr.leaf [1, 2, 3, 4]) (BinExpr.leaf [10, 20, 30, 40])) 1).getD
        1 0 =
    BinExpr.elem 0
      (BinExpr.node (fun x y => x + y)
        (BinExpr.leaf [1, 2, 3, 4]) (BinExpr.leaf [10, 20, 30, 40])) (1 + 1) :=
  binary_expr_load_lane_eq_elem 0 2
    (BinExpr.node (fun x y => x + y)
      (BinExpr.leaf [1, 2, 3, 4]) (BinExpr.leaf [10, 20, 30, 40]))
    1 1 (by decide)

/-!  ## Theorems for trait propagation of binary expressions (C6)  -/

/-- C6: the shape queries and the storage-order tag of a binary expression
come from its first non-generator operand, left-biased — from the left
operand when it is not a generator, from the right operand otherwise. -/
theorem binary_expr_traits_left_biased (lt rt : Traits) :
    (lt.is_generator = false →
      (binary_expr_traits lt rt).size = lt.size ∧
      (binary_expr_traits lt rt).dims = lt.dims ∧
      (binary_expr_traits lt rt).storage_order = lt.storage_order) ∧
    (lt.is_generator = true →
      (binary_expr_traits lt rt).size = rt.size ∧
      (binary_expr_traits lt rt).dims = rt.dims ∧
      (binary_expr_traits lt rt).storage_order = rt.storage_order) := by
  constructor
  · intro h
    simp [binary_expr_traits, binary_sub_traits, binary_left_directed, h]
  · intro h
    simp [binary_expr_traits, binary_sub_traits, binary_left_directed, h]

/-- C6 (witness): the trait propagation at concrete traits — a generator
left operand yields the right operand's shape and order. -/
theorem binary_expr_traits_left_biased_witness :
    (binary_expr_traits
      (Traits.mk true storage_order_t.RowMajor 0 [])
      (Traits.mk false storage_order_t.ColumnMajor 6 [2, 3])).size = 6 :=
  ((binary_expr_traits_left_biased
    (Traits.mk true storage_order_t.RowMajor 0 [])
    (Traits.mk false storage_order_t.ColumnMajor 6 [2, 3])).2 rfl).1

/-!  ## Theorems for shape consistency (C7)  -/

/-- The product of the extents equals the product of `dim d` over
`d < dimensions`. -/
theorem mul_all_eq_prod_range (ds : List Nat) :
    mul_all ds = ((List.range ds.length).map (fun d => ds.getD d 0)).prod := by
  induction ds with
  | nil => simp [mul_all]
  | cons d ds ih =>
    rw [mul_all, ih]
    simp [List.range_succ_eq_map, List.map_map, Function.comp_def]

/-- C7: `size() = Π dim(d)` over `d in 0..dimensions()` for the static
container (`fast_matrix_base`), the dynamic container (`dyn_matrix`), and
the traits of the matrix-product temporary (`basic_mm_mul_expr`). -/
theorem size_eq_prod_of_dims {α : Type} (dims : List Nat) (m : DynMatrix α)
    (a b : Dims2) :
    fast_matrix_etl_size dims =
      ((List.range (fast_matrix_dimensions dims)).map
        (fast_matrix_dim dims)).prod ∧
    DynMatrix.size m =
      ((List.range DynMatrix.dimensions).map (DynMatrix.dim m)).prod ∧
    mm_mul_size a b =
      ((List.range mm_mul_dimensions).map (mm_mul_dim a b)).prod := by
  refine ⟨?_, ?_, ?_⟩
  · show mul_all dims = _
    rw [mul_all_eq_prod_range]
    rfl
  · show m.rows * m.columns = _
    simp [DynMatrix.dimensions, DynMatrix.dim, List.range_succ]
  · show a.d0 * b.d1 = _
    simp [mm_mul_dimensions, mm_mul_dim, List.range_succ]

/-!  ## Theorems for temporary-expression evaluation (C1, C9)  -/

/-- C1: the invariants of a temporary expression.  A second allocate leaves
the existing container in place; a successful `evaluate` runs `apply` at
most once and re-evaluating afterwards runs it zero times; a full
allocate/evaluate pass of an unevaluated expression runs `apply` exactly
once and subsequent reads return the materialized buffer; accessing the
result while `evaluated` or `allocated` is false fails on the assertion. -/
theorem temporary_expr_idempotent_eval (alloc alloc2 : β)
    (applyFn : Option β → β) (s : TempExprState β) :
    ((allocate_temporary alloc2 (allocate_temporary alloc s)).buf =
      (allocate_temporary alloc s).buf) ∧
    (∀ s1 k, temp_evaluate applyFn s = some (s1, k) →
      k ≤ 1 ∧ temp_evaluate applyFn s1 = some (s1, 0)) ∧
    (s.evaluated = false →
      temp_evaluate applyFn (allocate_temporary alloc s) =
        some (TempExprState.mk true true
          (some (applyFn ((allocate_temporary alloc s).buf))), 1) ∧
      temp_result
        (TempExprState.mk true true
          (some (applyFn ((allocate_temporary alloc s).buf)))) =
        some (applyFn ((allocate_temporary alloc s).buf))) ∧
    (s.evaluated = false ∨ s.allocated = false → temp_result s = none) := by
  refine ⟨?_, ?_, ?_, ?_⟩
  · cases hb : s.buf <;> simp [allocate_temporary, hb]
  · intro s1 k h
    by_cases he : s.evaluated
    · simp only [temp_evaluate, he, if_true, Option.some.injEq, Prod.mk.injEq]
        at h
      obtain ⟨hs1, hk⟩ := h
      subst hs1
      exact ⟨by omega, by simp [temp_evaluate, he]⟩
    · simp only [temp_evaluate, he] at h
      by_cases ha : s.allocated
      · simp only [ha, if_true, if_false, Bool.false_eq_true,
          Option.some.injEq, Prod.mk.injEq] at h
        obtain ⟨hs1, hk⟩ := h
        subst hs1
        exact ⟨by omega, by simp [temp_evaluate]⟩
      · simp [ha] at h
  · intro he
    constructor
    · simp [temp_evaluate, allocate_temporary, he]
    · simp [temp_result]
  · intro h
    rcases h with h | h <;> simp [temp_result, h]

/-- C1 (witness): the invariants at a concrete state — a fresh temporary
(not allocated, not evaluated) whose `apply` writes 7: the allocate/
evaluate pass materializes 7 and reads return it. -/
theorem temporary_expr_idempotent_eval_witness :
    temp_evaluate (fun _ => (7 : Nat))
      (allocate_temporary 0 (TempExprState.mk false false none)) =
      some (TempExprState.mk true true (some 7), 1) ∧
    temp_result (TempExprState.mk true true (some (7 : Nat))) = some 7 := by
  have h := (temporary_expr_idempotent_eval 0 0 (fun _ => (7 : Nat))
    (TempExprState.mk false false none)).2.2.1 rfl
  exact ⟨h.1, h.2⟩

/-- C9: move-constructing a temporary expression transfers the container
and both flags to the destination, then resets only the moved-from
`evaluated` flag — the moved-to fields equal the source's prior state and
the moved-from keeps its `allocated` flag. -/
theorem temporary_expr_move_spec (s : TempExprState β) :
    (temporary_expr_move s).1.allocated = s.allocated ∧
    (temporary_expr_move s).1.evaluated = s.evaluated ∧
    (temporary_expr_move s).1.buf = s.buf ∧
    (temporary_expr_move s).2.evaluated = false ∧
    (temporary_expr_move s).2.allocated = s.allocated := by
  refine ⟨rfl, rfl, rfl, rfl, rfl⟩

/-!  ## Theorems for the parallel dispatcher (C8, C10)  -/

/-- C8 (counterexample): the claim says the functor is invoked
synchronously once on the whole range whenever parallel execution is
unavailable; on an empty range (`first = last = 5`, a single thread) the
source performs no invocation at all. -/
theorem engine_dispatch_1d_empty_counterexample :
    engine_select_parallel (ParCtx.mk 1 false false false) 0 100 = false ∧
    engine_dispatch_1d_blocks (ParCtx.mk 1 false false false) 5 5 100 = [] ∧
    ([] : List (Nat × Nat)) ≠ [(5, 5)] := by
  refine ⟨by decide, by decide, by decide⟩

/-- The scheduled blocks of the parallel branch form a chain: `m` blocks of
`batch` elements starting at `a`, then a final block ending at `lastv`. -/
theorem chain_blocks (batch lastv : Nat) :
    ∀ (m a : Nat), chainFrom a lastv
      (((List.range m).map
        (fun t => (a + t * batch, a + (t + 1) * batch))) ++
        [(a + m * batch, lastv)]) := by
  intro m
  induction m with
  | zero =>
    intro a
    simp [chainFrom]
  | succ m ih =>
    intro a
    rw [List.range_succ_eq_map, List.map_cons, List.map_map,
      List.cons_append]
    have hmap :
        ((List.range m).map
          ((fun t => (a + t * batch, a + (t + 1) * batch)) ∘ Nat.succ)) =
        ((List.range m).map
          (fun t => ((a + batch) + t * batch,
            (a + batch) + (t + 1) * batch))) := by
      apply List.map_congr_left
      intro t _
      simp only [Function.comp_apply, Nat.succ_eq_add_one, Prod.mk.injEq]
      constructor <;> ring
    have hlast : a + (m + 1) * batch = (a + batch) + m * batch := by ring
    rw [hmap, hlast]
    show (a + 0 * batch = a) ∧
      chainFrom (a + (0 + 1) * batch) lastv
        (((List.range m).map
          (fun t => ((a + batch) + t * batch,
            (a + batch) + (t + 1) * batch))) ++
          [((a + batch) + m * batch, lastv)])
    have h1 : a + (0 + 1) * batch = a + batch := by ring
    rw [h1]
    exact ⟨by ring, ih (a + batch)⟩

/-- C8 (amended): for a nonempty range, `engine_dispatch_1d` invokes the
functor once on the whole range when the parallel engine is not selected;
otherwise it partitions `[first, last)` into exactly
`T = min(range, thread_count)` contiguous, disjoint, nonempty blocks whose
union is `[first, last)` (the block boundaries are a function of the range
and the context, hence deterministic).  On an empty range the functor is
not invoked at all. -/
theorem engine_dispatch_1d_spec (ctx : ParCtx) (first last threshold : Nat)
    (h : first < last) :
    (engine_select_parallel ctx (last - first) threshold = false →
      engine_dispatch_1d_blocks ctx first last threshold = [(first, last)]) ∧
    (engine_select_parallel ctx (last - first) threshold = true →
      (engine_dispatch_1d_blocks ctx first last threshold).length =
        min (last - first) ctx.threads ∧
      chainFrom first last
        (engine_dispatch_1d_blocks ctx first last threshold) ∧
      ∀ p ∈ engine_dispatch_1d_blocks ctx first last threshold,
        p.1 < p.2) := by
  have hn0 : ¬(last - first = 0) := by omega
  constructor
  · intro hp
    simp [engine_dispatch_1d_blocks, hn0, hp]
  · intro hp
    have hthreads : 1 < ctx.threads := by
      simp only [engine_select_parallel, Bool.and_eq_true,
        decide_eq_true_eq] at hp
      exact hp.1.1
    set n := last - first with hn
    set T := min n ctx.threads with hT
    set batch := n / T with hbatch
    have hT1 : 1 ≤ T := by
      rw [hT]
      omega
    have hTn : T ≤ n := by
      rw [hT]
      omega
    have hb1 : 1 ≤ batch := by
      rw [hbatch]
      exact (Nat.one_le_div_iff (by omega)).mpr hTn
    have hTb : T * batch ≤ n := by
      rw [hbatch, Nat.mul_comm]
      exact Nat.div_mul_le_self n T
    have hblocks : engine_dispatch_1d_blocks ctx first last threshold =
        ((List.range (T - 1)).map
          (fun t => (first + t * batch, first + (t + 1) * batch))) ++
          [(first + (T - 1) * batch, last)] := by
      simp only [engine_dispatch_1d_blocks, hp, if_true, hn0, if_false]
    refine ⟨?_, ?_, ?_⟩
    · rw [hblocks]
      simp only [List.length_append, List.length_map, List.length_range,
        List.length_singleton]
      omega
    · rw [hblocks]
      exact chain_blocks batch last (T - 1) first
    · intro p hpmem
      rw [hblocks] at hpmem
      rcases List.mem_append.mp hpmem with hm | hm
      · obtain ⟨t, _, hpt⟩ := List.mem_map.mp hm
        have he : (t + 1) * batch = t * batch + batch := by ring
        rw [← hpt]
        simp only
        omega
      · have hpe : p = (first + (T - 1) * batch, last) := by
          simpa using hm
        subst hpe
        simp only
        have hTm : (T - 1) * batch + batch = T * batch := by
          have e1 : T - 1 + 1 = T := by omega
          calc (T - 1) * batch + batch = ((T - 1) + 1) * batch := by ring
            _ = T * batch := by rw [e1]
        omega

/-- C8 (witness): the amended dispatch property at a concrete input —
forced-parallel context with 2 threads on `[0, 5)` yields 2 chained blocks,
and a serial context yields the single whole-range invocation. -/
theorem engine_dispatch_1d_spec_witness :
    (engine_dispatch_1d_blocks (ParCtx.mk 2 false true false) 0 5 100).length
      = min 5 2 ∧
    engine_dispatch_1d_blocks (ParCtx.mk 1 false false false) 0 5 100 =
      [(0, 5)] := by
  constructor
  · exact ((engine_dispatch_1d_spec (ParCtx.mk 2 false true false) 0 5 100
      (by decide)).2 (by decide)).1
  · exact (engine_dispatch_1d_spec (ParCtx.mk 1 false false false) 0 5 100
      (by decide)).1 (by decide)

/-- The factor-adjustment loop, run with fuel `threads - m`, always stops
in a state satisfying the loop exit condition `m * (threads / m) =
threads` (so the fuel never cuts the C++ loop short), with both factors
at least 1. -/
theorem thread_blocks_fuel_spec (threads : Nat) :
    ∀ (fuel m : Nat), 1 ≤ m → m + fuel = threads →
      (thread_blocks_fuel threads fuel m).1 *
        (thread_blocks_fuel threads fuel m).2 = threads ∧
      1 ≤ (thread_blocks_fuel threads fuel m).1 ∧
      1 ≤ (thread_blocks_fuel threads fuel m).2 ∧
      (thread_blocks_fuel threads fuel m).2 =
        threads / (thread_blocks_fuel threads fuel m).1 := by
  intro fuel
  induction fuel with
  | zero =>
    intro m h1 h2
    have hm : m = threads := by omega
    have hdiv : threads / m = 1 := by
      rw [hm]
      exact Nat.div_self (by omega)
    simp only [thread_blocks_fuel]
    rw [hdiv]
    exact ⟨by omega, h1, Nat.le_refl 1, trivial⟩
  | succ fuel ih =>
    intro m h1 h2
    by_cases hc : m * (threads / m) = threads
    · have hq : 1 ≤ threads / m := by
        rcases Nat.eq_zero_or_pos (threads / m) with h0 | h0
        · rw [h0, Nat.mul_zero] at hc
          omega
        · exact h0
      have hres : thread_blocks_fuel threads (fuel + 1) m =
          (m, threads / m) := by
        simp [thread_blocks_fuel, hc]
      rw [hres]
      exact ⟨hc, h1, hq, rfl⟩
    · have hstep : thread_blocks_fuel threads (fuel + 1) m =
          thread_blocks_fuel threads fuel (m + 1) := by
        simp [thread_blocks_fuel, hc]
      rw [hstep]
      exact ih (m + 1) (by omega) (by omega)

/-- C10: for any `M ≥ 1`, `N ≥ 1` and any initial guess in `[1, threads]`
(the source clamps its floating-point estimate into exactly this range),
`thread_blocks` terminates and returns a pair `(m, n)` with `m ≥ 1`,
`n ≥ 1` and `m * n` exactly the thread count. -/
theorem thread_blocks_factorization (threads guess M N : Nat)
    (h1 : 1 ≤ guess) (h2 : guess ≤ threads) :
    1 ≤ (thread_blocks threads guess M N).1 ∧
    1 ≤ (thread_blocks threads guess M N).2 ∧
    (thread_blocks threads guess M N).1 *
      (thread_blocks threads guess M N).2 = threads := by
  have h := thread_blocks_fuel_spec threads (threads - guess) guess h1
    (by omega)
  rw [thread_blocks]
  by_cases hMN : M ≥ N
  · rw [if_pos hMN]
    exact ⟨h.2.1, h.2.2.1, h.1⟩
  · rw [if_neg hMN]
    refine ⟨h.2.2.1, h.2.1, ?_⟩
    rw [Nat.mul_comm]
    exact h.1

/-- C10 (witness): the factorization at a concrete input — 4 threads,
initial guess 2, dimensions 3x5 give a 2x2 grid of blocks. -/
theorem thread_blocks_factorization_witness :
    1 ≤ (thread_blocks 4 2 3 5).1 ∧
    1 ≤ (thread_blocks 4 2 3 5).2 ∧
    (thread_blocks 4 2 3 5).1 * (thread_blocks 4 2 3 5).2 = 4 :=
  thread_blocks_factorization 4 2 3 5 (by decide) (by decide)

end ETL
